import Mathlib

/-!
Shallow embedding of the variant-selection resolution, cache and prefetch
engine of `src/assets/variant-picker.js` (and the image preloader of
`src/assets/product-card.js`), together with theorems settling the spec
claims about it.

JavaScript values that can be `undefined`/`null` are modelled as
`Option String`; JS truthiness on strings treats `undefined`, `null` and
the empty string as falsy.  A JS `Map` is modelled as an insertion-ordered
association list: `set` of an existing key replaces the value in place
(keeping the key's original insertion position, as JS `Map.set` does),
`set` of a fresh key appends at the end, `keys().next().value` is the head
key, and `delete` removes the entry.
-/

namespace SB

/-- Truthiness of a possibly-undefined JS string (`undefined`, `null` and
`""` are falsy). -/
def jsTruthy : Option String → Bool
  | none => false
  | some s => s ≠ ""

/-- Model of the JS `a || b` fallback chain on possibly-undefined strings. -/
def jsOr (a b : Option String) : Option String :=
  if jsTruthy a then a else b

/-- Interpolating a possibly-undefined string into a template literal
(`undefined` prints as the string "undefined"). -/
def jsStr : Option String → String
  | none => "undefined"
  | some s => s

/-- Model of `Array.prototype.join(sep)`. -/
def jsJoin (sep : String) : List String → String
  | [] => ""
  | [x] => x
  | x :: y :: rest => x ++ sep ++ jsJoin sep (y :: rest)

/-- An insertion-ordered association list modelling a JS `Map<string,string>`. -/
abbrev JsMap := List (String × String)

/-- Model of `Map.prototype.has`. -/
def mapHas : JsMap → String → Bool
  | [], _ => false
  | p :: rest, k => p.1 == k || mapHas rest k

/-- Model of `Map.prototype.get` (`undefined` for an absent key). -/
def mapGet : JsMap → String → Option String
  | [], _ => none
  | p :: rest, k => if p.1 = k then some p.2 else mapGet rest k

/-- Model of `Map.prototype.set`: an existing key keeps its insertion
position and only its value is replaced; a fresh key is appended at the
end of the insertion order. -/
def mapSet : JsMap → String → String → JsMap
  | [], k, v => [(k, v)]
  | p :: rest, k, v => if p.1 = k then (p.1, v) :: rest else p :: mapSet rest k v

/-- Model of `Map.prototype.delete`. -/
def mapDelete : JsMap → String → JsMap
  | [], _ => []
  | p :: rest, k => if p.1 = k then mapDelete rest k else p :: mapDelete rest k

/-- Model of `map.keys().next().value`: the first key in insertion order. -/
def mapFirstKey (m : JsMap) : Option String :=
  m.head?.map Prod.fst

/-- The cache capacity `#MAX_CACHE_SIZE` of `variant-picker.js` (line 23). -/
def MAX_CACHE_SIZE : Nat := 50

/-- The insertion snippet shared verbatim by `#cacheCurrentPage`
(variant-picker.js lines 97-103) and `#prefetchSingleVariant` (lines
222-228): when the map already holds at least `#MAX_CACHE_SIZE` entries,
the first key in insertion order is deleted, and then the new entry is
set.  Note that the size check precedes any presence check for the key
being written. -/
def cachePut (m : JsMap) (k v : String) : JsMap :=
  let m1 :=
    if MAX_CACHE_SIZE ≤ m.length then
      match mapFirstKey m with
      | some fk => mapDelete m fk
      | none => m
    else m
  mapSet m1 k v

/-- Character membership test modelling `s.includes(c)` for one character. -/
def containsChar (s : String) (c : Char) : Bool :=
  s.toList.any (fun d => d == c)

/-- Model of `s.split(c)[0]` for a one-character separator: the prefix of
`s` before the first occurrence of `c` (all of `s` when absent). -/
def beforeChar (s : String) (c : Char) : String :=
  String.mk (s.toList.takeWhile (fun d => d ≠ c))

/-- Dataset and DOM-context inputs of `buildRequestUrl`
(variant-picker.js lines 600-625), read at call time.  The
`#pendingRequestUrl` instance field is passed separately because it is
mutable state surviving between calls. -/
structure BuildCtx where
  connectedProductUrl : Option String
  datasetProductUrl : Option String
  selectedOptionsValues : List String
  optionValueId : Option String
  isCardEmbedded : Bool
  source : Option String
  sourceSelectedOptionsValues : List String
  deriving DecidableEq

/-- Model of `buildRequestUrl` (variant-picker.js lines 600-625).  Returns
the built URL together with the new value of `#pendingRequestUrl` (the
method assigns `this.#pendingRequestUrl = productUrl` before building the
query string). -/
def buildRequestUrl (pending : Option String) (c : BuildCtx) : String × Option String :=
  let productUrl := jsOr c.connectedProductUrl (jsOr pending c.datasetProductUrl)
  let pendingOut := productUrl
  let params : List String :=
    if c.selectedOptionsValues ≠ [] ∧ jsTruthy c.source = false then
      ["option_values=" ++ jsJoin "," c.selectedOptionsValues]
    else if c.source = some "product-card" then
      if c.selectedOptionsValues ≠ [] then
        ["option_values=" ++ jsJoin "," c.sourceSelectedOptionsValues]
      else
        ["option_values=" ++ jsStr c.optionValueId]
    else []
  if c.isCardEmbedded then
    let pu :=
      match productUrl with
      | some s => if containsChar s '?' then beforeChar s '?' else s
      | none => "undefined"
    (pu ++ "?section_id=section-rendering-product-card&" ++ jsJoin "&" params, pendingOut)
  else
    (jsStr productUrl ++ "?" ++ jsJoin "&" params, pendingOut)

/-- ASCII lower-casing of one character, as `String.prototype.toLowerCase`
acts on the ASCII range relevant to the option labels. -/
def charToLower (c : Char) : Char :=
  if 'A' ≤ c ∧ c ≤ 'Z' then Char.ofNat (c.toNat + 32) else c

/-- Model of `String.prototype.toLowerCase` on ASCII strings. -/
def strToLower (s : String) : String :=
  String.mk (s.toList.map charToLower)

/-- Whether the second list is an initial segment of the first. -/
def startsWithChars : List Char → List Char → Bool
  | _, [] => true
  | [], _ :: _ => false
  | c :: cs, d :: ds => c == d && startsWithChars cs ds

/-- Substring occurrence test on character lists. -/
def containsChars : List Char → List Char → Bool
  | [], pat => pat.isEmpty
  | c :: rest, pat => startsWithChars (c :: rest) pat || containsChars rest pat

/-- Model of `String.prototype.includes`. -/
def strIncludes (s pat : String) : Bool :=
  containsChars s.toList pat.toList

/-- Model of `#isColorOption` (variant-picker.js lines 289-298): `legend`
is the `textContent` of the owning fieldset's `.variant-option__name`
element, `none` when the fieldset or that element is missing (both of
which make the method return false, as does a null `textContent`, which
the code collapses to the empty string). -/
def isColorOption (legend : Option String) : Bool :=
  match legend with
  | none => false
  | some t =>
      let n := strToLower t
      strIncludes n "color" || strIncludes n "colour" || strIncludes n "renk"

/-- The browser location, reduced to the parts `variantChanged`
manipulates: the pathname and the `variant` search parameter (all other
URL components are never touched and are dropped from the model). -/
structure UrlState where
  pathname : String
  variant : Option String
  deriving DecidableEq

/-- Data read from the changed control (`event.target`) and its DOM
surroundings in `variantChanged`. -/
structure TargetData where
  optionValueId : Option String
  connectedProductUrl : Option String
  variantId : Option String
  colorLegend : Option String
  inProductCard : Bool
  inQuickAddDialog : Bool
  deriving DecidableEq

/-- Per-instance state and DOM context of the variant picker read during
`variantChanged`. -/
structure PickerCtx where
  datasetProductUrl : Option String
  selectedOptionsValues : List String
  isCardEmbedded : Bool
  cache : JsMap
  pending : Option String
  deriving DecidableEq

/-- The `isOnProductPage` test (variant-picker.js lines 464-467). -/
def isOnProductPage (templateName : String) (t : TargetData) : Bool :=
  templateName == "product" && !t.inProductCard && !t.inQuickAddDialog

/-- The `BuildCtx` with which `variantChanged` calls `buildRequestUrl`
(`source` defaults to null). -/
def buildCtxOf (p : PickerCtx) (t : TargetData) : BuildCtx :=
  { connectedProductUrl := t.connectedProductUrl
    datasetProductUrl := p.datasetProductUrl
    selectedOptionsValues := p.selectedOptionsValues
    optionValueId := t.optionValueId
    isCardEmbedded := p.isCardEmbedded
    source := none
    sourceSelectedOptionsValues := [] }

/-- The `loadsNewProduct` flag (variant-picker.js lines 469-473): on a
product page, a truthy connected-product URL differing from
`this.dataset.productUrl?.split('?')[0]` forces full-page morphing. -/
def loadsNewProduct (templateName : String) (p : PickerCtx) (t : TargetData) : Bool :=
  let currentUrl := p.datasetProductUrl.map (fun s => beforeChar s '?')
  isOnProductPage templateName t && jsTruthy t.connectedProductUrl &&
    decide (t.connectedProductUrl ≠ currentUrl)

/-- Arguments of a `fetchUpdatedSection` call. -/
structure FetchReq where
  url : String
  shouldMorphMain : Bool
  isColorChange : Bool
  deriving DecidableEq

/-- Model of `url.searchParams.set('variant', id)` / `delete('variant')`
guarded by the truthiness of `event.target.dataset.variantId`
(variant-picker.js lines 490-494 and 509-513). -/
def setVariantParam (loc : UrlState) (variantId : Option String) : UrlState :=
  if jsTruthy variantId then { loc with variant := variantId }
  else { loc with variant := none }

/-- Observable outcome of one `variantChanged` run. -/
structure VCOutcome where
  fetchesIssued : List FetchReq
  tookCachedPath : Bool
  historyUrl : Option UrlState
  pendingOut : Option String
  deriving DecidableEq

/-- Model of `variantChanged` (variant-picker.js lines 455-524): builds
the request URL, consults the cache, and either applies the cached HTML
synchronously (color change on a product page) or calls
`fetchUpdatedSection`; in both branches it updates the address bar via
`history.replaceState` when the resulting URL differs. -/
def variantChanged (templateName : String) (loc : UrlState) (p : PickerCtx)
    (t : TargetData) : VCOutcome :=
  let onPP := isOnProductPage templateName t
  let lnp := loadsNewProduct templateName p t
  let pr := buildRequestUrl p.pending (buildCtxOf p t)
  let requestUrl := pr.1
  let cachedHtmlText := mapGet p.cache requestUrl
  let isCC := isColorOption t.colorLegend
  if jsTruthy cachedHtmlText && onPP && isCC then
    let url1 := setVariantParam loc t.variantId
    { fetchesIssued := []
      tookCachedPath := true
      historyUrl := if url1 ≠ loc then some url1 else none
      pendingOut := pr.2 }
  else
    let url1 := if onPP then setVariantParam loc t.variantId else loc
    let url2 := if lnp then { url1 with pathname := jsStr t.connectedProductUrl } else url1
    { fetchesIssued := [{ url := requestUrl, shouldMorphMain := lnp, isColorChange := isCC }]
      tookCachedPath := false
      historyUrl := if url2 ≠ loc then some url2 else none
      pendingOut := pr.2 }

/-- The two phases of the idle-scheduled callback body: `#cacheCurrentPage`
(snapshot) and `#prefetchAvailableColorVariants` (bulk color prefetch). -/
inductive Phase
  | snapshot
  | prefetchColors
  deriving DecidableEq

/-- A callback registered with `requestIdleCallback` or `setTimeout`. -/
structure ScheduledTask where
  viaIdleCallback : Bool
  timeoutMs : Nat
  phases : List Phase
  deriving DecidableEq

/-- Model of `#prefetchAfterSizeChange` (variant-picker.js lines 110-124):
on either branch (idle callback available or the Safari `setTimeout`
fallback) it schedules, with a 50 ms window, a callback running
`#cacheCurrentPage()` and then `#prefetchAvailableColorVariants()`. -/
def prefetchAfterSizeChange (idleAvailable : Bool) : ScheduledTask :=
  if idleAvailable then
    { viaIdleCallback := true, timeoutMs := 50, phases := [Phase.snapshot, Phase.prefetchColors] }
  else
    { viaIdleCallback := false, timeoutMs := 50, phases := [Phase.snapshot, Phase.prefetchColors] }

/-- The analogous connect-time scheduling in `connectedCallback`
(variant-picker.js lines 41-52), with a 100 ms window. -/
def connectScheduledTask (idleAvailable : Bool) : ScheduledTask :=
  if idleAvailable then
    { viaIdleCallback := true, timeoutMs := 100, phases := [Phase.snapshot, Phase.prefetchColors] }
  else
    { viaIdleCallback := false, timeoutMs := 100, phases := [Phase.snapshot, Phase.prefetchColors] }

/-- The parts of a parsed response document the handlers inspect:
`payload` is the `textContent` of
`variant-picker script[type="application/json"]` (`none` when the
selector finds nothing), `hasPicker` whether a `variant-picker` subtree
exists, `hasMain` whether a `main` element exists. -/
structure ParsedDoc where
  payload : Option String
  hasPicker : Bool
  hasMain : Bool
  deriving DecidableEq

/-- A UI-state mutation performed by the apply step: morphing the whole
main region, morphing the picker subtree, or dispatching a
`VariantUpdateEvent` carrying the payload text and the selected option
id.  Nothing in the response handlers performs a history update, so no
such constructor exists. -/
inductive Mutation
  | morphMain
  | morphPicker
  | dispatchUpdate (payload : String) (selectedOptionId : String)
  deriving DecidableEq

/-- Result of the fetch success/error continuation of
`fetchUpdatedSection`: the UI mutations performed, any error escaping to
the caller, the tasks newly scheduled, and the new `#pendingRequestUrl`. -/
structure HandlerResult where
  mutations : List Mutation
  surfacedError : Option String
  scheduled : List ScheduledTask
  pendingOut : Option String
  deriving DecidableEq

/-- The shared apply step of `fetchUpdatedSection` (lines 649-664) and
`#updateWithCachedHtml` (lines 539-554): full-page morph via `updateMain`
(lines 720-729, throwing when either `main` element is missing) or
partial morph via `updateVariantPicker` (lines 688-714, throwing when the
response has no `variant-picker` subtree) followed by the
`VariantUpdateEvent` dispatch gated on `this.selectedOptionId`. -/
def applyUpdate (selOptId : Option String) (curMainPresent shouldMorphMain : Bool)
    (d : ParsedDoc) : Except String (List Mutation) :=
  if shouldMorphMain then
    if curMainPresent && d.hasMain then Except.ok [Mutation.morphMain]
    else Except.error "No new main source found"
  else
    if d.hasPicker then
      Except.ok ([Mutation.morphPicker] ++
        (match selOptId with
         | some i => [Mutation.dispatchUpdate (jsStr d.payload) i]
         | none => []))
    else Except.error "No new variant picker source found"

/-- Model of the promise continuations of `fetchUpdatedSection`
(variant-picker.js lines 638-674): the success handler clears
`#pendingRequestUrl`, returns silently when the embedded payload is
missing, otherwise applies the update and schedules the post-update
prefetch pass unless the change was a color change; any thrown error is
rejected into the chain and lands in the `.catch` handler, which only
inspects `AbortError` and otherwise does nothing, so no error ever
surfaces to the caller of `fetchUpdatedSection`. -/
def responseHandler (idleAvailable : Bool) (selOptId : Option String)
    (curMainPresent shouldMorphMain isColorChange : Bool) (d : ParsedDoc) : HandlerResult :=
  if jsTruthy d.payload = false then
    { mutations := [], surfacedError := none, scheduled := [], pendingOut := none }
  else
    match applyUpdate selOptId curMainPresent shouldMorphMain d with
    | Except.ok ms =>
        { mutations := ms, surfacedError := none
          scheduled := if isColorChange then [] else [prefetchAfterSizeChange idleAvailable]
          pendingOut := none }
    | Except.error _ =>
        { mutations := [], surfacedError := none, scheduled := [], pendingOut := none }

/-- Model of `#updateWithCachedHtml` (variant-picker.js lines 532-560),
which runs synchronously inside `variantChanged` with no enclosing catch:
a missing payload returns silently, but an error thrown by the apply step
propagates to the caller. -/
def updateWithCachedHtml (idleAvailable : Bool) (selOptId : Option String)
    (curMainPresent shouldMorphMain isColorChange : Bool) (d : ParsedDoc) :
    Except String (List Mutation × List ScheduledTask) :=
  if jsTruthy d.payload = false then Except.ok ([], [])
  else
    match applyUpdate selOptId curMainPresent shouldMorphMain d with
    | Except.ok ms =>
        Except.ok (ms, if isColorChange then [] else [prefetchAfterSizeChange idleAvailable])
    | Except.error e => Except.error e

/-- State of the user-triggered fetch machinery of one picker instance:
`current` is the fetch owned by the live `#abortController`, `aborted`
the ids whose controller was aborted, `inFlight` the issued fetches whose
promise chain has not yet settled. -/
structure NetState where
  nextId : Nat
  current : Option Nat
  aborted : List Nat
  inFlight : List (Nat × FetchReq)
  mutations : List Mutation
  scheduled : List ScheduledTask
  htmlCache : JsMap
  pendingRequestUrl : Option String
  deriving DecidableEq

/-- Initial state with a given cache content and no fetch activity. -/
def netInit (cache : JsMap) : NetState :=
  { nextId := 0, current := none, aborted := [], inFlight := []
    mutations := [], scheduled := [], htmlCache := cache, pendingRequestUrl := none }

/-- Events of the fetch machinery: a `fetchUpdatedSection` call, or the
settling of the response of a previously issued fetch (with the
environment data the handler reads at that moment). -/
inductive NetEv
  | fetchSection (req : FetchReq)
  | arrive (id : Nat) (idleAvailable : Bool) (selOptId : Option String)
      (curMainPresent : Bool) (d : ParsedDoc)
  deriving DecidableEq

/-- One step of the fetch machinery.  `fetchSection` models lines 633-638:
abort the previous controller, make a fresh one, start the fetch.
`arrive` models the settling of fetch `id`: when the controller of that
fetch was aborted, the browser rejects the promise with `AbortError`,
which the `.catch` handler ignores, so nothing is mutated; otherwise the
success handler runs. -/
def netStep (s : NetState) (e : NetEv) : NetState :=
  match e with
  | NetEv.fetchSection req =>
      { s with
        aborted := (match s.current with
                    | some i => i :: s.aborted
                    | none => s.aborted)
        current := some s.nextId
        inFlight := (s.nextId, req) :: s.inFlight
        nextId := s.nextId + 1 }
  | NetEv.arrive id idleAvailable selOptId curMainPresent d =>
      match s.inFlight.find? (fun q => q.1 == id) with
      | none => s
      | some q =>
          let s1 := { s with inFlight := s.inFlight.filter (fun r => r.1 != id) }
          if s.aborted.contains id then s1
          else
            let h := responseHandler idleAvailable selOptId curMainPresent
                       q.2.shouldMorphMain q.2.isColorChange d
            { s1 with
              mutations := s.mutations ++ h.mutations
              scheduled := s.scheduled ++ h.scheduled
              pendingRequestUrl := h.pendingOut }

/-- Run the fetch machinery from the initial state over an event list. -/
def netRun (cache : JsMap) (evs : List NetEv) : NetState :=
  evs.foldl netStep (netInit cache)

/-- The fetches issued and not yet settled whose controller has not been
aborted: the "pending" user-triggered fetches. -/
def pendingFetches (s : NetState) : List (Nat × FetchReq) :=
  s.inFlight.filter (fun r => !(s.aborted.contains r.1))

/-- Lifecycle-relevant per-instance state: the fragment cache, the idle
callbacks / timeouts currently registered with the browser, and whether
the hover listeners are attached. -/
structure ComponentState where
  htmlCache : JsMap
  scheduledTasks : List ScheduledTask
  listenersAttached : Bool
  deriving DecidableEq

/-- Model of `connectedCallback` (variant-picker.js lines 34-53): attach
listeners and register the snapshot-and-prefetch idle callback (or its
`setTimeout` fallback). -/
def connectedCallback (idleAvailable : Bool) (s : ComponentState) : ComponentState :=
  { s with
    listenersAttached := true
    scheduledTasks := s.scheduledTasks ++ [connectScheduledTask idleAvailable] }

/-- Model of `disconnectedCallback` (variant-picker.js lines 55-69): it
removes the hover listeners and clears the cache.  No
`cancelIdleCallback` or `clearTimeout` appears anywhere in the class (the
handles of the scheduled callbacks are not even stored), so the
registered tasks are left untouched. -/
def disconnectedCallback (s : ComponentState) : ComponentState :=
  { s with listenersAttached := false, htmlCache := [] }

/-- The live-page data `#cacheCurrentPage` reads: the checked option
value ids, `this.dataset.productUrl`, and the `main` element's
`outerHTML`. -/
structure PageEnv where
  checkedOptionIds : List String
  productUrl : Option String
  mainHtml : Option String
  deriving DecidableEq

/-- The key under which `#cacheCurrentPage` stores the snapshot
(variant-picker.js line 88). -/
def currentPageKey (env : PageEnv) : String :=
  jsStr env.productUrl ++ "?option_values=" ++ jsJoin "," env.checkedOptionIds

/-- Model of `#cacheCurrentPage` (variant-picker.js lines 74-105):
returns early when no option is checked or no `main` element exists,
otherwise stores the snapshot through the capacity-checked put. -/
def cacheCurrentPage (env : PageEnv) (cache : JsMap) : JsMap :=
  if env.checkedOptionIds = [] then cache
  else
    match env.mainHtml with
    | none => cache
    | some mh => cachePut cache (currentPageKey env) mh

/-- The response data `#prefetchSingleVariant` inspects after its fetch:
`ok` is `response.ok`, `textNonBlank` whether the body text is non-empty
after trimming, `mainHtml` the `outerHTML` of the parsed document's
`main` element when present. -/
structure PrefetchResp where
  ok : Bool
  textNonBlank : Bool
  mainHtml : Option String
  deriving DecidableEq

/-- State of the variant-picker prefetch subsystem: the shared cache and
the prefetch fetches currently in flight.  The source keeps no in-flight
bookkeeping of its own, so `inFlightUrls` is derived state of the model
(a multiset of started, unsettled fetches), not a structure of the code. -/
structure PrefetchState where
  htmlCache : JsMap
  inFlightUrls : List String
  deriving DecidableEq

/-- Events of the prefetch subsystem: `start url` is a
`#prefetchSingleVariant` invocation reaching its guard with the given
built URL (variant-picker.js lines 185-197: skip when the URL is falsy or
already cached — the only checks the code makes); `settle` is its fetch
settling, `failed` marking a rejected promise (swallowed by the empty
catch). -/
inductive PrefetchEv
  | start (url : String)
  | settle (url : String) (failed : Bool) (resp : PrefetchResp)
  deriving DecidableEq

/-- One step of the prefetch subsystem, from lines 185-232: on settling
successfully with an ok, non-blank response containing a `main` element,
the fragment is stored through the capacity-checked put. -/
def prefetchStep (s : PrefetchState) (e : PrefetchEv) : PrefetchState :=
  match e with
  | PrefetchEv.start url =>
      if url = "" ∨ mapHas s.htmlCache url = true then s
      else { s with inFlightUrls := url :: s.inFlightUrls }
  | PrefetchEv.settle url failed resp =>
      if s.inFlightUrls.contains url then
        let s1 := { s with inFlightUrls := s.inFlightUrls.erase url }
        if failed then s1
        else if resp.ok = false then s1
        else if resp.textNonBlank = false then s1
        else
          match resp.mainHtml with
          | none => s1
          | some mh => { s1 with htmlCache := cachePut s1.htmlCache url mh }
      else s

/-- Run the prefetch subsystem from a given cache with nothing in
flight. -/
def prefetchRun (cache : JsMap) (evs : List PrefetchEv) : PrefetchState :=
  evs.foldl prefetchStep { htmlCache := cache, inFlightUrls := [] }

/-- ASCII upper-casing of one character, as `String.prototype.toUpperCase`
acts on the ASCII range. -/
def charToUpper (c : Char) : Char :=
  if 'a' ≤ c ∧ c ≤ 'z' then Char.ofNat (c.toNat - 32) else c

/-- Whitespace test covering the characters relevant to color names. -/
def isSpaceChar (c : Char) : Bool :=
  c == ' ' || c == '\t' || c == '\n' || c == '\r'

/-- The color key normalization of `#preloadImagesForColor`
(product-card.js line 826): upper-case and strip whitespace. -/
def colorKeyOf (colorValue : String) : String :=
  String.mk ((colorValue.toList.map charToUpper).filter (fun c => !(isSpaceChar c)))

/-- State of the product-card image preloader's deduplication:
`#preloadQueue`, the transient set of color keys currently being
preloaded. -/
structure PreloadState where
  preloadQueue : List String
  deriving DecidableEq

/-- Events of the image preloader: a `#preloadImagesForColor` invocation
for a color value (with whether `#productData` is loaded), and the
completion of a preload (the `delete` at product-card.js line 906, which
runs after both success and the caught failure). -/
inductive PreloadEv
  | start (colorValue : String) (hasProductData : Bool)
  | finish (colorKey : String)
  deriving DecidableEq

/-- One step of the image preloader, from product-card.js lines 823-907:
return early without product data, skip keys already in the queue, and
otherwise record the key before the awaited work begins. -/
def preloadStep (s : PreloadState) (e : PreloadEv) : PreloadState :=
  match e with
  | PreloadEv.start colorValue hasProductData =>
      if hasProductData = false then s
      else
        let key := colorKeyOf colorValue
        if s.preloadQueue.contains key then s
        else { preloadQueue := key :: s.preloadQueue }
  | PreloadEv.finish key =>
      { preloadQueue := s.preloadQueue.erase key }

/-- Run the image preloader from an empty queue. -/
def preloadRun (evs : List PreloadEv) : PreloadState :=
  evs.foldl preloadStep { preloadQueue := [] }

/-- A full 50-entry cache with pairwise distinct keys, used to exercise
the eviction behavior on concrete inputs. -/
def exCache : JsMap :=
  (List.range MAX_CACHE_SIZE).map (fun i => ("u" ++ toString i, "h"))

/-- A concrete `buildRequestUrl` context: a plain product page selection
with no connected-product override. -/
def c1Ctx : BuildCtx :=
  { connectedProductUrl := none
    datasetProductUrl := some "/products/shirt"
    selectedOptionsValues := ["111", "222"]
    optionValueId := some "111"
    isCardEmbedded := false
    source := none
    sourceSelectedOptionsValues := [] }

/-- The same context with a connected-product URL on the changed value. -/
def c1ConnCtx : BuildCtx :=
  { c1Ctx with connectedProductUrl := some "/products/blue-shirt" }

/-- Auxiliary invariant of the fetch machinery: ids in flight are below
the id counter, as are aborted ids and the current id; in-flight ids are
pairwise distinct; and every in-flight fetch that is not aborted is the
one owned by the live controller. -/
def NetInv (s : NetState) : Prop :=
  (∀ q ∈ s.inFlight, q.1 < s.nextId) ∧
  (∀ i ∈ s.aborted, i < s.nextId) ∧
  (∀ i, s.current = some i → i < s.nextId) ∧
  (s.inFlight.map Prod.fst).Nodup ∧
  (∀ q ∈ s.inFlight, s.aborted.contains q.1 = false → s.current = some q.1)

/-- A concrete color-change fetch request. -/
def reqA : FetchReq :=
  { url := "/products/shirt?option_values=1,2", shouldMorphMain := false, isColorChange := true }

/-- A concrete non-color-change fetch request. -/
def reqB : FetchReq :=
  { url := "/products/shirt?option_values=1,3", shouldMorphMain := false, isColorChange := false }

/-- A structurally complete response document. -/
def docOk : ParsedDoc := { payload := some "json-state", hasPicker := true, hasMain := true }

/-- A response document lacking the embedded state payload. -/
def docNoPayload : ParsedDoc := { payload := none, hasPicker := true, hasMain := true }

/-- A response document lacking the variant-picker subtree. -/
def docNoPicker : ParsedDoc := { payload := some "json-state", hasPicker := false, hasMain := true }

/-- Concrete location of a product page. -/
def c3Loc : UrlState := { pathname := "/products/shirt", variant := none }

/-- Concrete changed control: a color swatch with no connected product. -/
def c3Target : TargetData :=
  { optionValueId := some "b1"
    connectedProductUrl := none
    variantId := some "v9"
    colorLegend := some "Color"
    inProductCard := false
    inQuickAddDialog := false }

/-- Concrete picker state whose cache holds the fragment for the key the
selection of `c3Target` builds. -/
def c3Picker : PickerCtx :=
  { datasetProductUrl := some "/products/shirt"
    selectedOptionsValues := ["b1", "m2"]
    isCardEmbedded := false
    cache := [("/products/shirt?option_values=b1,m2", "cached-main")]
    pending := none }

/-- Concrete live-page data for the snapshot phase. -/
def envEx : PageEnv :=
  { checkedOptionIds := ["1", "2"]
    productUrl := some "/products/shirt"
    mainHtml := some "mainhtml" }

/-- Concrete connected component state with one registered idle task. -/
def compEx : ComponentState :=
  { htmlCache := [("a", "b")]
    scheduledTasks := [connectScheduledTask true]
    listenersAttached := true }

/-- Concrete component state before `connectedCallback` runs. -/
def compEx0 : ComponentState :=
  { htmlCache := [("a", "b")]
    scheduledTasks := []
    listenersAttached := false }

theorem mapHas_iff (m : JsMap) (k : String) :
    mapHas m k = true ↔ k ∈ m.map Prod.fst := by
  induction m with
  | nil => simp [mapHas]
  | cons p rest ih =>
      simp only [mapHas, List.map_cons, List.mem_cons, Bool.or_eq_true, beq_iff_eq, ih]
      exact or_congr ⟨fun h => h.symm, fun h => h.symm⟩ Iff.rfl

theorem mapHas_eq_false_iff (m : JsMap) (k : String) :
    mapHas m k = false ↔ k ∉ m.map Prod.fst := by
  rw [← mapHas_iff]
  cases h : mapHas m k <;> simp

theorem mapSet_eq_append (m : JsMap) (k v : String) (h : mapHas m k = false) :
    mapSet m k v = m ++ [(k, v)] := by
  induction m with
  | nil => rfl
  | cons p rest ih =>
      simp only [mapHas, Bool.or_eq_false_iff, beq_eq_false_iff_ne, ne_eq] at h
      simp [mapSet, h.1, ih h.2]

theorem mapSet_length (m : JsMap) (k v : String) :
    (mapSet m k v).length = if mapHas m k then m.length else m.length + 1 := by
  induction m with
  | nil => simp [mapSet, mapHas]
  | cons p rest ih =>
      by_cases hpk : p.1 = k
      · simp [mapSet, mapHas, hpk]
      · simp only [mapSet, if_neg hpk, mapHas, List.length_cons, ih]
        have : (p.1 == k) = false := by simpa using hpk
        rw [this]
        by_cases h : mapHas rest k <;> simp [h]

theorem mapSet_length_le (m : JsMap) (k v : String) :
    (mapSet m k v).length ≤ m.length + 1 := by
  rw [mapSet_length]
  by_cases h : mapHas m k <;> simp [h]

theorem mapDelete_eq_self_of_not_has (m : JsMap) (k : String)
    (h : mapHas m k = false) : mapDelete m k = m := by
  induction m with
  | nil => rfl
  | cons p rest ih =>
      simp only [mapHas, Bool.or_eq_false_iff, beq_eq_false_iff_ne, ne_eq] at h
      simp [mapDelete, h.1, ih h.2]

theorem mapDelete_cons_head (p : String × String) (rest : JsMap)
    (hnd : ((p :: rest).map Prod.fst).Nodup) :
    mapDelete (p :: rest) p.1 = rest := by
  rw [List.map_cons, List.nodup_cons] at hnd
  have h2 : mapHas rest p.1 = false := (mapHas_eq_false_iff rest p.1).mpr hnd.1
  simp [mapDelete, mapDelete_eq_self_of_not_has rest p.1 h2]

theorem mapDelete_length_le_tail (p : String × String) (rest : JsMap) :
    (mapDelete (p :: rest) p.1).length ≤ rest.length := by
  simp only [mapDelete, if_pos rfl]
  induction rest with
  | nil => simp [mapDelete]
  | cons q t ih =>
      by_cases h : q.1 = p.1
      · simp only [mapDelete, if_pos h]
        exact Nat.le_trans ih (by simp)
      · simp only [mapDelete, if_neg h, List.length_cons]
        exact Nat.succ_le_succ ih

theorem mapHas_mapSet (m : JsMap) (k v k' : String) :
    mapHas (mapSet m k v) k' = (mapHas m k' || k' == k) := by
  induction m with
  | nil =>
      simp only [mapSet, mapHas, Bool.or_false, Bool.false_or]
      by_cases h : k = k'
      · simp [h]
      · have h1 : (k == k') = false := by simpa using h
        have h2 : (k' == k) = false := by simpa using fun hh => h hh.symm
        simp [h1, h2]
  | cons p rest ih =>
      by_cases hpk : p.1 = k
      · subst hpk
        by_cases hk' : p.1 = k'
        · simp [mapSet, mapHas, hk']
        · have h1 : (p.1 == k') = false := by simpa using hk'
          have h2 : (k' == p.1) = false := by simpa using fun hh => hk' hh.symm
          simp [mapSet, mapHas, h1, h2]
      · simp [mapSet, if_neg hpk, mapHas, ih, Bool.or_assoc]

theorem mapHas_append (a b : JsMap) (k : String) :
    mapHas (a ++ b) k = (mapHas a k || mapHas b k) := by
  induction a with
  | nil => simp [mapHas]
  | cons p rest ih => simp [mapHas, ih, Bool.or_assoc]

/-- C2: the fragment cache never exceeds its capacity of 50 entries: a put
into a cache within capacity stays within capacity, and inserting a fresh
key into a full cache evicts exactly one entry — the least-recently
inserted one, i.e. the head of the insertion order — leaving the cache at
capacity with every other previously cached key still addressable.
Reads (`mapGet`) are pure and never reorder entries, so there is no
promotion on read. -/
theorem cache_capacity_fifo (m : JsMap) (k v : String)
    (hnd : (m.map Prod.fst).Nodup) (hle : m.length ≤ 50) :
    (cachePut m k v).length ≤ 50 ∧
    (m.length = 50 → mapHas m k = false →
      cachePut m k v = m.tail ++ [(k, v)] ∧
      (cachePut m k v).length = 50 ∧
      (∀ q ∈ m.tail, mapHas (cachePut m k v) q.1 = true)) := by
  constructor
  · by_cases h50 : MAX_CACHE_SIZE ≤ m.length
    · cases m with
      | nil => simp [MAX_CACHE_SIZE] at h50
      | cons p rest =>
          have h50' : MAX_CACHE_SIZE ≤ rest.length + 1 := by simpa using h50
          have heq : cachePut (p :: rest) k v = mapSet (mapDelete (p :: rest) p.1) k v := by
            simp [cachePut, mapFirstKey, h50']
          have h1 := mapSet_length_le (mapDelete (p :: rest) p.1) k v
          have h2 := mapDelete_length_le_tail p rest
          have h3 : rest.length + 1 ≤ 50 := by simpa using hle
          rw [heq]
          omega
    · have heq : cachePut m k v = mapSet m k v := by
        simp [cachePut, if_neg h50]
      have h1 := mapSet_length_le m k v
      have h2 : ¬ 50 ≤ m.length := h50
      rw [heq]
      omega
  · intro hlen hkn
    cases m with
    | nil => simp at hlen
    | cons p rest =>
        have hrest : rest.length = 49 := by simpa using hlen
        have h50 : MAX_CACHE_SIZE ≤ (p :: rest).length := by
          simp [MAX_CACHE_SIZE, List.length_cons, hrest]
        have hdel : mapDelete (p :: rest) p.1 = rest := mapDelete_cons_head p rest hnd
        have hkn2 : mapHas rest k = false := by
          simp only [mapHas, Bool.or_eq_false_iff] at hkn
          exact hkn.2
        have h50' : MAX_CACHE_SIZE ≤ rest.length + 1 := by simpa using h50
        have heq : cachePut (p :: rest) k v = rest ++ [(k, v)] := by
          simp [cachePut, mapFirstKey, h50', hdel, mapSet_eq_append rest k v hkn2]
        refine ⟨by simpa using heq, ?_, ?_⟩
        · rw [heq]
          simp [hrest]
        · intro q hq
          simp only [List.tail_cons] at hq
          rw [heq, mapHas_append]
          have hqm : mapHas rest q.1 = true :=
            (mapHas_iff rest q.1).mpr (List.mem_map_of_mem Prod.fst hq)
          simp [hqm]

/-- Witness for C2 on a concrete full cache and fresh key. -/
theorem cache_capacity_fifo_witness :
    (cachePut exCache "unew" "hnew").length ≤ 50 ∧
    (exCache.length = 50 → mapHas exCache "unew" = false →
      cachePut exCache "unew" "hnew" = exCache.tail ++ [("unew", "hnew")] ∧
      (cachePut exCache "unew" "hnew").length = 50 ∧
      (∀ q ∈ exCache.tail, mapHas (cachePut exCache "unew" "hnew") q.1 = true)) :=
  cache_capacity_fifo exCache "unew" "hnew" (by decide) (by decide)

/-- C10: because the size check precedes the presence check in the shared
put snippet, a put of an already-cached key into a full cache still
evicts the head entry: when the key is present but is not the head key,
the head entry disappears and the cache shrinks from 50 to 49 entries
while the written key remains addressable. -/
theorem redundant_put_evicts_and_shrinks (m : JsMap) (k v fk : String)
    (hnd : (m.map Prod.fst).Nodup)
    (hfirst : mapFirstKey m = some fk)
    (hlen : m.length = 50)
    (hhas : mapHas m k = true)
    (hne : k ≠ fk) :
    (cachePut m k v).length = 49 ∧
    mapHas (cachePut m k v) fk = false ∧
    mapHas (cachePut m k v) k = true := by
  cases m with
  | nil => simp [mapFirstKey] at hfirst
  | cons p rest =>
      have hp : p.1 = fk := by simpa [mapFirstKey] using hfirst
      have hrest : rest.length = 49 := by simpa using hlen
      have h50 : MAX_CACHE_SIZE ≤ (p :: rest).length := by
        simp [MAX_CACHE_SIZE, List.length_cons, hrest]
      have hdel : mapDelete (p :: rest) p.1 = rest := mapDelete_cons_head p rest hnd
      have hfk_rest : mapHas rest p.1 = false := by
        rw [List.map_cons, List.nodup_cons] at hnd
        exact (mapHas_eq_false_iff rest p.1).mpr hnd.1
      have hkp : (p.1 == k) = false := by
        simpa using fun hh => hne (hp ▸ hh.symm)
      have hkrest : mapHas rest k = true := by
        simp only [mapHas, hkp, Bool.false_or] at hhas
        exact hhas
      have h50' : MAX_CACHE_SIZE ≤ rest.length + 1 := by simpa using h50
      have heq : cachePut (p :: rest) k v = mapSet rest k v := by
        simp [cachePut, mapFirstKey, h50', hdel]
      refine ⟨?_, ?_, ?_⟩
      · rw [heq, mapSet_length, hkrest]
        simp [hrest]
      · rw [heq, mapHas_mapSet]
        rw [hp] at hfk_rest
        have hfkk : (fk == k) = false := by
          simpa using fun hh => hne hh.symm
        simp [hfk_rest, hfkk]
      · rw [heq, mapHas_mapSet]
        simp [hkrest]

/-- Witness for C10: overwriting the already-present key "u7" in the full
concrete cache evicts the unrelated head entry "u0" and shrinks the cache
to 49 entries. -/
theorem redundant_put_evicts_witness :
    (cachePut exCache "u7" "hnew").length = 49 ∧
    mapHas (cachePut exCache "u7" "hnew") "u0" = false ∧
    mapHas (cachePut exCache "u7" "hnew") "u7" = true :=
  redundant_put_evicts_and_shrinks exCache "u7" "hnew" "u0"
    (by decide) (by decide) (by decide) (by decide) (by decide)

/-- C1 counterexample: `buildRequestUrl` is not independent of which
requests were pending before the call.  With an identical selection and
identical context (no connected-product URL on the changed value, not
card-embedded), a call made while `#pendingRequestUrl` still holds a
previous connected-product URL produces a different URL string than a
call made with no pending request. -/
theorem buildRequestUrl_pending_counterexample :
    (buildRequestUrl none c1Ctx).1 = "/products/shirt?option_values=111,222" ∧
    (buildRequestUrl (some "/products/other") c1Ctx).1
      = "/products/other?option_values=111,222" ∧
    (buildRequestUrl none c1Ctx).1 ≠ (buildRequestUrl (some "/products/other") c1Ctx).1 := by
  refine ⟨by decide, by decide, by decide⟩

/-- C1 amended: `buildRequestUrl` is deterministic in the selection and
context provided the `#pendingRequestUrl` state agrees between the two
invocations; in particular, when the changed value carries a truthy
connected-product URL the pending state is irrelevant and any two
invocations with identical context agree. -/
theorem buildRequestUrl_deterministic (p1 p2 : Option String) (c : BuildCtx)
    (h : p1 = p2 ∨ jsTruthy c.connectedProductUrl = true) :
    buildRequestUrl p1 c = buildRequestUrl p2 c := by
  rcases h with h | h
  · rw [h]
  · have hfix : jsOr c.connectedProductUrl (jsOr p1 c.datasetProductUrl)
        = jsOr c.connectedProductUrl (jsOr p2 c.datasetProductUrl) := by
      simp [jsOr, h]
    simp only [buildRequestUrl, hfix]

/-- Witness for the amended C1: with a connected-product URL present, the
built URL ignores the pending-request state. -/
theorem buildRequestUrl_deterministic_witness :
    buildRequestUrl none c1ConnCtx = buildRequestUrl (some "/products/other") c1ConnCtx :=
  buildRequestUrl_deterministic none (some "/products/other") c1ConnCtx (Or.inr (by decide))

theorem setVariantParam_variant (loc : UrlState) (vid : Option String) :
    (setVariantParam loc vid).variant = if jsTruthy vid then vid else none := by
  by_cases h : jsTruthy vid = true
  · simp [setVariantParam, h]
  · have h' : jsTruthy vid = false := by
      cases hv : jsTruthy vid
      · rfl
      · exact absurd hv h
    simp [setVariantParam, h']

/-- C3: a color-change event on a product page whose built request key
has a (truthy) cached fragment is served synchronously from the cache:
`variantChanged` takes the cached-update path, issues zero network
fetches, and the effective location after the conditional
`history.replaceState` still has its `variant` parameter set to the
changed control's variant id (or cleared when that id is falsy). -/
theorem cache_hit_color_change_no_network (templateName : String) (loc : UrlState)
    (p : PickerCtx) (t : TargetData)
    (hpp : isOnProductPage templateName t = true)
    (hcol : isColorOption t.colorLegend = true)
    (hhit : jsTruthy (mapGet p.cache (buildRequestUrl p.pending (buildCtxOf p t)).1) = true) :
    (variantChanged templateName loc p t).fetchesIssued = [] ∧
    (variantChanged templateName loc p t).tookCachedPath = true ∧
    ((variantChanged templateName loc p t).historyUrl.getD loc).variant
      = (if jsTruthy t.variantId then t.variantId else none) := by
  have hvc : variantChanged templateName loc p t =
      { fetchesIssued := []
        tookCachedPath := true
        historyUrl := if setVariantParam loc t.variantId ≠ loc
                      then some (setVariantParam loc t.variantId) else none
        pendingOut := (buildRequestUrl p.pending (buildCtxOf p t)).2 } := by
    simp only [variantChanged, hpp, hcol, hhit, Bool.true_and, Bool.and_self, if_true]
  refine ⟨by rw [hvc], by rw [hvc], ?_⟩
  rw [hvc]
  by_cases h : setVariantParam loc t.variantId = loc
  · simp only [h, ne_eq, not_true_eq_false, if_false, Option.getD_none]
    rw [← h, setVariantParam_variant]
  · simp only [ne_eq, h, not_false_eq_true, if_true, Option.getD_some]
    rw [setVariantParam_variant]

/-- Witness for C3 on a concrete product page, color control and warm
cache. -/
theorem cache_hit_color_change_witness :
    (variantChanged "product" c3Loc c3Picker c3Target).fetchesIssued = [] ∧
    (variantChanged "product" c3Loc c3Picker c3Target).tookCachedPath = true ∧
    ((variantChanged "product" c3Loc c3Picker c3Target).historyUrl.getD c3Loc).variant
      = (if jsTruthy c3Target.variantId then c3Target.variantId else none) :=
  cache_hit_color_change_no_network "product" c3Loc c3Picker c3Target
    (by decide) (by decide) (by decide)

theorem natContains_iff (l : List Nat) (a : Nat) : l.contains a = true ↔ a ∈ l := by
  simp [List.contains, List.elem_iff]

theorem natContains_eq_false_iff (l : List Nat) (a : Nat) :
    l.contains a = false ↔ a ∉ l := by
  constructor
  · intro h hm
    rw [(natContains_iff l a).mpr hm] at h
    cases h
  · intro h
    cases hc : l.contains a
    · rfl
    · exact absurd ((natContains_iff l a).mp hc) h

theorem netStep_arrive_none (s : NetState) (id : Nat) (idle : Bool)
    (selOpt : Option String) (cm : Bool) (d : ParsedDoc)
    (hfind : s.inFlight.find? (fun r => r.1 == id) = none) :
    netStep s (NetEv.arrive id idle selOpt cm d) = s := by
  simp [netStep, hfind]

theorem netStep_arrive_fields (s : NetState) (id : Nat) (idle : Bool)
    (selOpt : Option String) (cm : Bool) (d : ParsedDoc) (q : Nat × FetchReq)
    (hfind : s.inFlight.find? (fun r => r.1 == id) = some q) :
    (netStep s (NetEv.arrive id idle selOpt cm d)).inFlight
        = s.inFlight.filter (fun r => r.1 != id) ∧
    (netStep s (NetEv.arrive id idle selOpt cm d)).current = s.current ∧
    (netStep s (NetEv.arrive id idle selOpt cm d)).aborted = s.aborted ∧
    (netStep s (NetEv.arrive id idle selOpt cm d)).nextId = s.nextId ∧
    (netStep s (NetEv.arrive id idle selOpt cm d)).htmlCache = s.htmlCache := by
  simp only [netStep, hfind]
  by_cases hab : id ∈ s.aborted <;> simp [hab]

theorem netInv_init (cache : JsMap) : NetInv (netInit cache) := by
  refine ⟨?_, ?_, ?_, ?_, ?_⟩ <;> simp [netInit]

theorem netInv_step (s : NetState) (e : NetEv) (h : NetInv s) : NetInv (netStep s e) := by
  obtain ⟨h1, h2, h3, h4, h5⟩ := h
  cases e with
  | fetchSection req =>
      cases hcur : s.current with
      | none =>
          refine ⟨?_, ?_, ?_, ?_, ?_⟩ <;> simp only [netStep, hcur]
          · intro q hq
            rcases List.mem_cons.mp hq with rfl | hq
            · exact Nat.lt_succ_self _
            · exact Nat.lt_succ_of_lt (h1 q hq)
          · intro i hi
            exact Nat.lt_succ_of_lt (h2 i hi)
          · intro i hi
            injection hi with hi
            omega
          · rw [List.map_cons, List.nodup_cons]
            refine ⟨fun hmem => ?_, h4⟩
            obtain ⟨q, hq, hq1⟩ := List.mem_map.mp hmem
            have := h1 q hq
            omega
          · intro q hq hc
            rcases List.mem_cons.mp hq with rfl | hq
            · rfl
            · have := h5 q hq hc
              rw [hcur] at this
              cases this
      | some c =>
          refine ⟨?_, ?_, ?_, ?_, ?_⟩ <;> simp only [netStep, hcur]
          · intro q hq
            rcases List.mem_cons.mp hq with rfl | hq
            · exact Nat.lt_succ_self _
            · exact Nat.lt_succ_of_lt (h1 q hq)
          · intro i hi
            rcases List.mem_cons.mp hi with rfl | hi
            · exact Nat.lt_succ_of_lt (h3 i hcur)
            · exact Nat.lt_succ_of_lt (h2 i hi)
          · intro i hi
            injection hi with hi
            omega
          · rw [List.map_cons, List.nodup_cons]
            refine ⟨fun hmem => ?_, h4⟩
            obtain ⟨q, hq, hq1⟩ := List.mem_map.mp hmem
            have := h1 q hq
            omega
          · intro q hq hc
            rcases List.mem_cons.mp hq with rfl | hq
            · rfl
            · have hnotin : q.1 ∉ c :: s.aborted := (natContains_eq_false_iff _ _).mp hc
              rw [List.mem_cons] at hnotin
              push_neg at hnotin
              have hcold : s.aborted.contains q.1 = false :=
                (natContains_eq_false_iff _ _).mpr hnotin.2
              have := h5 q hq hcold
              rw [hcur] at this
              injection this with this
              exact absurd this.symm hnotin.1
  | arrive id idle selOpt cm d =>
      cases hfind : s.inFlight.find? (fun r => r.1 == id) with
      | none =>
          rw [netStep_arrive_none s id idle selOpt cm d hfind]
          exact ⟨h1, h2, h3, h4, h5⟩
      | some q =>
          obtain ⟨hf1, hf2, hf3, hf4, _⟩ := netStep_arrive_fields s id idle selOpt cm d q hfind
          refine ⟨?_, ?_, ?_, ?_, ?_⟩
          · rw [hf1, hf4]
            intro r hr
            exact h1 r (List.mem_of_mem_filter hr)
          · rw [hf3, hf4]
            exact h2
          · rw [hf2, hf4]
            exact h3
          · rw [hf1]
            exact h4.sublist (List.Sublist.map Prod.fst (List.filter_sublist _))
          · rw [hf1, hf3, hf2]
            intro r hr hc
            exact h5 r (List.mem_of_mem_filter hr) hc

theorem netInv_run (cache : JsMap) (evs : List NetEv) : NetInv (netRun cache evs) := by
  suffices h : ∀ s, NetInv s → NetInv (evs.foldl netStep s) from h _ (netInv_init cache)
  induction evs with
  | nil => intro s hs; exact hs
  | cons e t ih => intro s hs; exact ih _ (netInv_step s e hs)

theorem filter_fst_eq_length_le_one {β : Type} (l : List (Nat × β)) (P : Nat × β → Bool)
    (c : Nat) (hnd : (l.map Prod.fst).Nodup) (hc : ∀ q ∈ l, P q = true → q.1 = c) :
    (l.filter P).length ≤ 1 := by
  induction l with
  | nil => simp
  | cons a t ih =>
      rw [List.map_cons, List.nodup_cons] at hnd
      by_cases hPa : P a = true
      · rw [List.filter_cons_of_pos hPa]
        have ht : t.filter P = [] := by
          apply List.filter_eq_nil_iff.mpr
          intro q hq hPq
          have hq1 : q.1 = c := hc q (List.mem_cons_of_mem a hq) hPq
          have ha1 : a.1 = c := hc a (List.mem_cons_self a t) hPa
          exact hnd.1 (by
            rw [ha1, ← hq1]
            exact List.mem_map_of_mem Prod.fst hq)
        rw [ht]
        simp
      · rw [List.filter_cons_of_neg hPa]
        exact ih hnd.2 (fun q hq hPq => hc q (List.mem_cons_of_mem a hq) hPq)

theorem pendingFetches_length_le_one (s : NetState) (h : NetInv s) :
    (pendingFetches s).length ≤ 1 := by
  obtain ⟨h1, h2, h3, h4, h5⟩ := h
  cases hcur : s.current with
  | none =>
      have hnil : pendingFetches s = [] := by
        apply List.filter_eq_nil_iff.mpr
        intro q hq hPq
        have hc : s.aborted.contains q.1 = false := by
          cases hcc : s.aborted.contains q.1
          · rfl
          · rw [hcc] at hPq
            cases hPq
        have := h5 q hq hc
        rw [hcur] at this
        cases this
      rw [hnil]
      simp
  | some c =>
      apply filter_fst_eq_length_le_one _ _ c h4
      intro q hq hPq
      have hc : s.aborted.contains q.1 = false := by
        cases hcc : s.aborted.contains q.1
        · rfl
        · rw [hcc] at hPq
          cases hPq
      have := h5 q hq hc
      rw [hcur] at this
      injection this with this
      exact this.symm

/-- C4: over every event history, at most one user-triggered fetch is
pending (issued, not settled, not aborted) per picker instance; issuing a
new selection aborts the fetch owned by the live controller; and a
response arriving for an aborted fetch mutates no UI state and schedules
no work — its promise chain rejects with `AbortError`, which the catch
handler discards (the response handlers never perform history updates at
all, so none can come from a stale response either). -/
theorem at_most_one_pending_fetch (cache : JsMap) (evs : List NetEv)
    (id : Nat) (idle : Bool) (selOpt : Option String) (cm : Bool) (d : ParsedDoc) :
    (pendingFetches (netRun cache evs)).length ≤ 1 ∧
    (∀ req i, (netRun cache evs).current = some i →
      (netStep (netRun cache evs) (NetEv.fetchSection req)).aborted.contains i = true) ∧
    ((netRun cache evs).aborted.contains id = true →
      (netStep (netRun cache evs) (NetEv.arrive id idle selOpt cm d)).mutations
          = (netRun cache evs).mutations ∧
      (netStep (netRun cache evs) (NetEv.arrive id idle selOpt cm d)).scheduled
          = (netRun cache evs).scheduled) := by
  refine ⟨pendingFetches_length_le_one _ (netInv_run cache evs), ?_, ?_⟩
  · intro req i hcur
    simp only [netStep, hcur]
    exact (natContains_iff _ _).mpr (List.mem_cons_self _ _)
  · intro hab
    cases hfind : (netRun cache evs).inFlight.find? (fun r => r.1 == id) with
    | none =>
        rw [netStep_arrive_none _ id idle selOpt cm d hfind]
        exact ⟨rfl, rfl⟩
    | some q =>
        constructor <;> simp only [netStep, hfind, hab, if_true]

/-- Witness for C4 on a concrete two-selection history: the second
selection aborted fetch 0, whose stale arrival changes nothing, and a
third selection aborts the currently pending fetch 1. -/
theorem at_most_one_pending_fetch_witness :
    (pendingFetches (netRun [] [NetEv.fetchSection reqA, NetEv.fetchSection reqB])).length ≤ 1 ∧
    (netStep (netRun [] [NetEv.fetchSection reqA, NetEv.fetchSection reqB])
        (NetEv.arrive 0 true (some "1") true docOk)).mutations
      = (netRun [] [NetEv.fetchSection reqA, NetEv.fetchSection reqB]).mutations ∧
    (netStep (netRun [] [NetEv.fetchSection reqA, NetEv.fetchSection reqB])
        (NetEv.fetchSection reqA)).aborted.contains 1 = true :=
  ⟨(at_most_one_pending_fetch [] [NetEv.fetchSection reqA, NetEv.fetchSection reqB]
      0 true (some "1") true docOk).1,
   ((at_most_one_pending_fetch [] [NetEv.fetchSection reqA, NetEv.fetchSection reqB]
      0 true (some "1") true docOk).2.2 (by decide)).1,
   (at_most_one_pending_fetch [] [NetEv.fetchSection reqA, NetEv.fetchSection reqB]
      0 true (some "1") true docOk).2.1 reqA 1 (by decide)⟩

/-- C5 counterexample: a cache-miss color change whose fetch succeeds is
applied (the picker is morphed and the update event dispatched), yet the
fetched fragment is not stored in the fragment cache under the request
key — `fetchUpdatedSection` contains no cache write. -/
theorem fetch_success_not_cached_counterexample :
    (netRun [] [NetEv.fetchSection reqA,
                NetEv.arrive 0 true (some "1") true docOk]).mutations
      = [Mutation.morphPicker, Mutation.dispatchUpdate "json-state" "1"] ∧
    (netRun [] [NetEv.fetchSection reqA,
                NetEv.arrive 0 true (some "1") true docOk]).htmlCache = [] ∧
    mapHas (netRun [] [NetEv.fetchSection reqA,
                NetEv.arrive 0 true (some "1") true docOk]).htmlCache reqA.url = false := by
  decide

/-- C5 amended: on a cache miss `variantChanged` issues exactly one
cancellable fetch for the built key, in full-page mode exactly when the
selection crosses to a connected product (`loadsNewProduct`); on success
the fragment is applied in that mode (whole-main morph, or picker morph
plus update event), but the fetched fragment is never stored in the
fragment cache — the arrival step leaves the cache unchanged, and only
the snapshot/prefetch passes populate it. -/
theorem fetch_on_miss_behavior (templateName : String) (loc : UrlState) (p : PickerCtx)
    (t : TargetData)
    (hmiss : mapGet p.cache (buildRequestUrl p.pending (buildCtxOf p t)).1 = none)
    (s : NetState) (id : Nat) (idle : Bool) (selOpt : Option String) (req : FetchReq)
    (d : ParsedDoc)
    (hfind : s.inFlight.find? (fun r => r.1 == id) = some (id, req))
    (hnab : s.aborted.contains id = false)
    (hok : jsTruthy d.payload = true) :
    (variantChanged templateName loc p t).fetchesIssued
      = [{ url := (buildRequestUrl p.pending (buildCtxOf p t)).1
           shouldMorphMain := loadsNewProduct templateName p t
           isColorChange := isColorOption t.colorLegend }] ∧
    (variantChanged templateName loc p t).tookCachedPath = false ∧
    (req.shouldMorphMain = true → d.hasMain = true →
      (netStep s (NetEv.arrive id idle selOpt true d)).mutations
        = s.mutations ++ [Mutation.morphMain]) ∧
    (req.shouldMorphMain = false → d.hasPicker = true →
      (netStep s (NetEv.arrive id idle selOpt true d)).mutations
        = s.mutations ++ ([Mutation.morphPicker] ++
            (match selOpt with
             | some i => [Mutation.dispatchUpdate (jsStr d.payload) i]
             | none => []))) ∧
    (netStep s (NetEv.arrive id idle selOpt true d)).htmlCache = s.htmlCache := by
  have hcond : jsTruthy (mapGet p.cache (buildRequestUrl p.pending (buildCtxOf p t)).1)
      = false := by
    rw [hmiss]
    rfl
  have hnab' : id ∉ s.aborted := (natContains_eq_false_iff _ _).mp hnab
  refine ⟨?_, ?_, ?_, ?_, ?_⟩
  · simp only [variantChanged, hcond, Bool.false_and, Bool.false_eq_true, if_false]
  · simp only [variantChanged, hcond, Bool.false_and, Bool.false_eq_true, if_false]
  · intro hm hdm
    simp [netStep, hfind, hnab', responseHandler, applyUpdate, hok, hm, hdm]
  · intro hm hdp
    simp [netStep, hfind, hnab', responseHandler, applyUpdate, hok, hm, hdp]
  · simp only [netStep, hfind]
    by_cases hab : id ∈ s.aborted <;> simp [hab]

/-- Witness for the amended C5: a concrete miss (empty cache) and a
concrete successful partial-mode arrival. -/
theorem fetch_on_miss_behavior_witness :
    (variantChanged "product" c3Loc
        { c3Picker with cache := [] } c3Target).fetchesIssued
      = [{ url := (buildRequestUrl ({ c3Picker with cache := ([] : JsMap) }).pending
                    (buildCtxOf { c3Picker with cache := [] } c3Target)).1
           shouldMorphMain := loadsNewProduct "product" { c3Picker with cache := [] } c3Target
           isColorChange := isColorOption c3Target.colorLegend }] ∧
    (variantChanged "product" c3Loc { c3Picker with cache := [] } c3Target).tookCachedPath
      = false ∧
    (reqA.shouldMorphMain = true → docOk.hasMain = true →
      (netStep (netRun [] [NetEv.fetchSection reqA])
          (NetEv.arrive 0 true (some "1") true docOk)).mutations
        = (netRun [] [NetEv.fetchSection reqA]).mutations ++ [Mutation.morphMain]) ∧
    (reqA.shouldMorphMain = false → docOk.hasPicker = true →
      (netStep (netRun [] [NetEv.fetchSection reqA])
          (NetEv.arrive 0 true (some "1") true docOk)).mutations
        = (netRun [] [NetEv.fetchSection reqA]).mutations ++ ([Mutation.morphPicker] ++
            (match (some "1" : Option String) with
             | some i => [Mutation.dispatchUpdate (jsStr docOk.payload) i]
             | none => []))) ∧
    (netStep (netRun [] [NetEv.fetchSection reqA])
        (NetEv.arrive 0 true (some "1") true docOk)).htmlCache
      = (netRun [] [NetEv.fetchSection reqA]).htmlCache :=
  fetch_on_miss_behavior "product" c3Loc { c3Picker with cache := [] } c3Target (by decide)
    (netRun [] [NetEv.fetchSection reqA]) 0 true (some "1") reqA docOk
    (by decide) (by decide) (by decide)

/-- C6 counterexample: the callback scheduled by `#prefetchAfterSizeChange`
does repeat the snapshot phase — its body calls `#cacheCurrentPage()`
before `#prefetchAvailableColorVariants()` on both scheduling branches. -/
theorem prefetch_after_size_change_counterexample :
    (prefetchAfterSizeChange true).phases = [Phase.snapshot, Phase.prefetchColors] ∧
    Phase.snapshot ∈ (prefetchAfterSizeChange true).phases ∧
    (prefetchAfterSizeChange false).phases = [Phase.snapshot, Phase.prefetchColors] := by
  decide

/-- C6 amended: after a successful non-color change the handler schedules
exactly one callback in a short idle window (50 ms timeout), and that
callback repeats BOTH of step 1's phases — the page snapshot
(`#cacheCurrentPage`) and the color prefetch pass — while a color change
schedules nothing. -/
theorem prefetch_pass_after_non_color_change (idle : Bool) (selOpt : Option String)
    (cm : Bool) (d : ParsedDoc)
    (hok : jsTruthy d.payload = true) (hpk : d.hasPicker = true) :
    (responseHandler idle selOpt cm false false d).scheduled
      = [prefetchAfterSizeChange idle] ∧
    (responseHandler idle selOpt cm false true d).scheduled = [] ∧
    (prefetchAfterSizeChange idle).phases = [Phase.snapshot, Phase.prefetchColors] ∧
    (prefetchAfterSizeChange idle).timeoutMs = 50 := by
  refine ⟨?_, ?_, ?_, ?_⟩
  · simp [responseHandler, applyUpdate, hok, hpk]
  · simp [responseHandler, applyUpdate, hok, hpk]
  · cases idle <;> rfl
  · cases idle <;> rfl

/-- Witness for the amended C6 on a concrete successful response. -/
theorem prefetch_pass_after_non_color_change_witness :
    (responseHandler true (some "1") true false false docOk).scheduled
      = [prefetchAfterSizeChange true] ∧
    (responseHandler true (some "1") true false true docOk).scheduled = [] ∧
    (prefetchAfterSizeChange true).phases = [Phase.snapshot, Phase.prefetchColors] ∧
    (prefetchAfterSizeChange true).timeoutMs = 50 :=
  prefetch_pass_after_non_color_change true (some "1") true docOk (by decide) (by decide)

/-- C7 counterexample: a response lacking the embedded payload makes the
network resolution step return silently, and a response lacking the
picker subtree throws an error that the `.catch` handler swallows — in
neither case does any failure surface to the caller, contradicting the
claim that structural failures are signaled loudly. -/
theorem structural_failure_silent_counterexample :
    (responseHandler true (some "1") true false true docNoPayload).surfacedError = none ∧
    (responseHandler true (some "1") true false true docNoPayload).mutations = [] ∧
    (responseHandler true (some "1") true false true docNoPicker).surfacedError = none ∧
    (responseHandler true (some "1") true false true docNoPicker).mutations = [] := by
  decide

/-- C7 amended: in the network path a structural failure is silent — a
missing payload short-circuits the handler and a missing picker subtree
throws an error that the catch handler swallows, so no error surfaces and
no mutation happens; only the synchronous cached-HTML path propagates the
missing-picker error to its caller. -/
theorem structural_failure_handling (idle : Bool) (selOpt : Option String) (cm cc : Bool)
    (d : ParsedDoc)
    (hfail : jsTruthy d.payload = false ∨ d.hasPicker = false) :
    (responseHandler idle selOpt cm false cc d).surfacedError = none ∧
    (responseHandler idle selOpt cm false cc d).mutations = [] ∧
    (jsTruthy d.payload = true → d.hasPicker = false →
      updateWithCachedHtml idle selOpt cm false cc d
        = Except.error "No new variant picker source found") := by
  by_cases hp : jsTruthy d.payload = false
  · refine ⟨?_, ?_, ?_⟩
    · simp [responseHandler, hp]
    · simp [responseHandler, hp]
    · intro h1 _
      rw [hp] at h1
      cases h1
  · have hp' : jsTruthy d.payload = true := by
      cases hpv : jsTruthy d.payload
      · exact absurd hpv hp
      · rfl
    have hpk : d.hasPicker = false := by
      rcases hfail with h | h
      · exact absurd h hp
      · exact h
    refine ⟨?_, ?_, ?_⟩
    · simp [responseHandler, applyUpdate, hp', hpk]
    · simp [responseHandler, applyUpdate, hp', hpk]
    · intro _ _
      simp [updateWithCachedHtml, applyUpdate, hp', hpk]

/-- Witness for the amended C7 on a concrete picker-less document. -/
theorem structural_failure_handling_witness :
    (responseHandler true (some "1") true false false docNoPicker).surfacedError = none ∧
    (responseHandler true (some "1") true false false docNoPicker).mutations = [] ∧
    (jsTruthy docNoPicker.payload = true → docNoPicker.hasPicker = false →
      updateWithCachedHtml true (some "1") true false false docNoPicker
        = Except.error "No new variant picker source found") :=
  structural_failure_handling true (some "1") true false docNoPicker (Or.inr (by decide))

/-- C8 counterexample: the variant-picker prefetcher keeps no in-flight
set — it only skips keys already cached — so a second
`#prefetchSingleVariant` for the same yet-uncached key, invoked while the
first is still awaiting its fetch, starts a second concurrent fetch for
that key. -/
theorem duplicate_prefetch_counterexample :
    (prefetchRun [] [PrefetchEv.start "/products/shirt?option_values=9,2",
                     PrefetchEv.start "/products/shirt?option_values=9,2"]).inFlightUrls
      = ["/products/shirt?option_values=9,2", "/products/shirt?option_values=9,2"] ∧
    (prefetchRun [] [PrefetchEv.start "/products/shirt?option_values=9,2",
                     PrefetchEv.start "/products/shirt?option_values=9,2"]).inFlightUrls.count
        "/products/shirt?option_values=9,2" = 2 := by
  decide

theorem contains_iff_mem_str (l : List String) (a : String) :
    l.contains a = true ↔ a ∈ l := by
  simp [List.contains, List.elem_iff]

theorem preload_step_nodup (s : PreloadState) (e : PreloadEv)
    (h : s.preloadQueue.Nodup) : (preloadStep s e).preloadQueue.Nodup := by
  cases e with
  | start cv hd =>
      cases hd with
      | false => simpa [preloadStep] using h
      | true =>
          by_cases hm : colorKeyOf cv ∈ s.preloadQueue
          · simpa [preloadStep, hm] using h
          · have hgoal : (preloadStep s (PreloadEv.start cv true)).preloadQueue
                = colorKeyOf cv :: s.preloadQueue := by
              simp [preloadStep, hm]
            rw [hgoal, List.nodup_cons]
            exact ⟨hm, h⟩
  | finish k => exact h.erase k

theorem preloadRun_nodup (evs : List PreloadEv) : (preloadRun evs).preloadQueue.Nodup := by
  suffices h : ∀ s : PreloadState, s.preloadQueue.Nodup →
      (evs.foldl preloadStep s).preloadQueue.Nodup from h _ (by simp)
  induction evs with
  | nil => intro s hs; exact hs
  | cons e t ih => intro s hs; exact ih _ (preload_step_nodup s e hs)

/-- C8 amended: deduplication differs between the two prefetchers.  The
variant-picker prefetcher skips a key that is already cached (its only
check), so cached keys are never re-fetched, but it records nothing while
a fetch is in flight.  The product-card image preloader does keep the
claimed transient in-flight set: a key is added to `#preloadQueue` when a
preload starts, removed on completion, and a starting preload whose key
is already queued is skipped — so over every event history the queue has
no duplicates, i.e. at most one preload per color key is in flight. -/
theorem prefetch_dedup (s : PrefetchState) (u : String) (evs : List PreloadEv)
    (hcached : mapHas s.htmlCache u = true) :
    prefetchStep s (PrefetchEv.start u) = s ∧
    (preloadRun evs).preloadQueue.Nodup := by
  refine ⟨?_, preloadRun_nodup evs⟩
  simp [prefetchStep, hcached]

/-- Witness for the amended C8 on a concrete cached key and a concrete
preload history with a duplicate hover. -/
theorem prefetch_dedup_witness :
    prefetchStep { htmlCache := [("k1", "h")], inFlightUrls := [] } (PrefetchEv.start "k1")
      = { htmlCache := [("k1", "h")], inFlightUrls := [] } ∧
    (preloadRun [PreloadEv.start "Sky Blue" true, PreloadEv.start "Sky Blue" true,
                 PreloadEv.finish "SKYBLUE"]).preloadQueue.Nodup :=
  prefetch_dedup { htmlCache := [("k1", "h")], inFlightUrls := [] } "k1"
    [PreloadEv.start "Sky Blue" true, PreloadEv.start "Sky Blue" true,
     PreloadEv.finish "SKYBLUE"] (by decide)

/-- C9 counterexample: detaching right after connecting leaves the
connect-time idle callback registered (`disconnectedCallback` cancels no
timers), and when that leftover callback later runs its snapshot phase it
re-populates the cache that detach had cleared. -/
theorem detach_leaves_timers_counterexample :
    (disconnectedCallback (connectedCallback true compEx0)).scheduledTasks
      = [connectScheduledTask true] ∧
    (disconnectedCallback (connectedCallback true compEx0)).htmlCache = [] ∧
    cacheCurrentPage envEx (disconnectedCallback (connectedCallback true compEx0)).htmlCache
      = [(currentPageKey envEx, "mainhtml")] := by
  decide

/-- C9 amended: on detach the hover listeners are removed and the cache
is cleared, but pending timers and idle callbacks are NOT cleared —
`disconnectedCallback` leaves the registered tasks untouched, and a
leftover snapshot callback that runs after detach re-populates the
just-cleared cache under the current page key. -/
theorem detach_behavior (s : ComponentState) (env : PageEnv) (mh : String)
    (hids : env.checkedOptionIds ≠ []) (hmh : env.mainHtml = some mh) :
    (disconnectedCallback s).htmlCache = [] ∧
    (disconnectedCallback s).listenersAttached = false ∧
    (disconnectedCallback s).scheduledTasks = s.scheduledTasks ∧
    mapHas (cacheCurrentPage env (disconnectedCallback s).htmlCache)
      (currentPageKey env) = true := by
  refine ⟨rfl, rfl, rfl, ?_⟩
  simp [disconnectedCallback, cacheCurrentPage, hids, hmh, cachePut, MAX_CACHE_SIZE,
    mapSet, mapHas]

/-- Witness for the amended C9 on a concrete component state and page. -/
theorem detach_behavior_witness :
    (disconnectedCallback compEx).htmlCache = [] ∧
    (disconnectedCallback compEx).listenersAttached = false ∧
    (disconnectedCallback compEx).scheduledTasks = compEx.scheduledTasks ∧
    mapHas (cacheCurrentPage envEx (disconnectedCallback compEx).htmlCache)
      (currentPageKey envEx) = true :=
  detach_behavior compEx envEx "mainhtml" (by decide) (by decide)
